import Mathlib

/-!
Verification of the command-dispatch core of `my-shell.c`.

The embedding models:
* `parse`   — `strtok(string, " ")` tokenization plus the `"#"` background
  marker truncation, returning an argument vector and a background flag;
* `handle_builtin` — recognition of `exit`/`quit`/`cd`/`chdir`, returning the
  C function's `1` / `0` / `-1` result and the updated shell state;
* `mainIter` / `runShell` — one iteration of the read loop and the whole
  loop over a finite list of input lines (an exhausted list models `getline`
  returning `-1`).

Strings are modelled as `List Char`; the environment (`getenv("HOME")`) and
the filesystem effect of `chdir` are parameters of the model.  A `cd` path
that is a C null pointer is modelled as `none`.  Calling `handle_builtin`
with an empty argument vector reads `args[0]`, which does not exist; the
model returns `none` there (undefined behaviour in the C source).
-/

namespace MyShell

/-- Argument strings are modelled as lists of characters. -/
abbrev Str := List Char

/-- Capacity of the argument array allocated by `parse` (`MAX_ARGS` in the source). -/
def MAX_ARGS : Nat := 128

/-- The background-marker token `"#"` tested by `strcmp(token, "#")`. -/
def marker : Str := ['#']

/-- Cutting a character list at every separator character (those satisfying
`p`), keeping empty pieces.  `fields p l` always has at least one element;
consecutive separators, or leading/trailing separators, contribute empty
pieces that the tokenizer below discards, which is exactly the behaviour of
the `strtok` loop in `parse`. -/
def fields (p : Char → Bool) : List Char → List (List Char)
  | [] => [[]]
  | c :: cs =>
    match fields p cs with
    | [] => [[c]]
    | t :: ts => if p c then [] :: t :: ts else (c :: t) :: ts

/-- The `strtok(string, " ")` loop of `parse`: split on runs of the space
character, producing no empty tokens. -/
def tokenize (l : List Char) : List Str :=
  (fields (fun c => c == ' ') l).filter (fun t => t ≠ [])

/-- Modelled from the spec's words (for comparison with the code's
tokenization): splitting the line on runs of whitespace characters,
producing no empty tokens. -/
def whitespaceSplit (l : List Char) : List Str :=
  (fields Char.isWhitespace l).filter (fun t => t ≠ [])

/-- The value returned by `parse`: the argument vector and the background flag. -/
structure Command where
  args : List Str
  background : Bool
deriving DecidableEq, Repr

/-- The token loop of `parse`: keep tokens until one equals the marker; on the
marker set the background flag and stop (the marker and everything after it
are discarded). -/
def parseTokens : List Str → List Str × Bool
  | [] => ([], false)
  | t :: ts =>
    if t = marker then ([], true)
    else
      let r := parseTokens ts
      (t :: r.1, r.2)

/-- The `parse` function of the source: tokenize the line, truncate at the
background marker. -/
def parse (line : List Char) : Command :=
  let r := parseTokens (tokenize line)
  ⟨r.1, r.2⟩

/-- The ambient state `handle_builtin` interacts with: `getenv("HOME")`
(`none` models an unset variable, i.e. a null pointer) and the effect of
`chdir` — `chdirRes path = some d` models a successful call that leaves the
process in directory `d`, `none` a failing call.  The argument of `chdirRes`
is `none` when the C code passes a null pointer. -/
structure Env where
  home : Option Str
  chdirRes : Option Str → Option Str

/-- Mutable shell state: the `running` flag and the working directory. -/
structure ShellSt where
  running : Bool
  cwd : Str
deriving DecidableEq, Repr

/-- What one call of `handle_builtin` produces: the C return value (`1`,
`0` or `-1`), the state after the call, and — when `chdir` was invoked —
the path that was passed to it (`some none` records a null-pointer path). -/
structure BResult where
  ret : Int
  st : ShellSt
  chdirArg : Option (Option Str)
deriving DecidableEq, Repr

/-- The path handed to `chdir` by the `cd`/`chdir` branch: the second token
when present, otherwise the value of `getenv("HOME")`. -/
def cdTarget (env : Env) (rest : List Str) : Option Str :=
  match rest.head? with
  | none => env.home
  | some p => some p

/-- The `handle_builtin` function of the source.  `none` models the undefined
read of `args[0]` when the argument vector is empty. -/
def handle_builtin (env : Env) (args : List Str) (st : ShellSt) : Option BResult :=
  match args with
  | [] => none
  | a0 :: rest =>
    if a0 = "exit".data ∨ a0 = "quit".data then
      some ⟨1, ⟨false, st.cwd⟩, none⟩
    else if a0 = "cd".data ∨ a0 = "chdir".data then
      let path := cdTarget env rest
      match env.chdirRes path with
      | none => some ⟨-1, st, some path⟩
      | some d => some ⟨1, ⟨st.running, d⟩, some path⟩
    else some ⟨0, st, none⟩

/-- What one loop iteration did with a line. -/
inductive Action where
  | skipped : Action
  | ranBuiltin : Int → Action
  | executed : List Str → Bool → Action
deriving DecidableEq, Repr

/-- Removal of the trailing newline (`cmd[read-1] = '\0'` in the source). -/
def stripNL (l : List Char) : List Char :=
  if l.getLast? = some '\n' then l.dropLast else l

/-- One iteration of the read loop on a successfully read raw line: skip a
blank line (`cmd[0] == '\n'`), otherwise strip the newline, parse, call
`handle_builtin`, and call `execute` exactly when it returned `0`.
`none` propagates the undefined dispatch of an empty argument vector. -/
def mainIter (env : Env) (st : ShellSt) (raw : List Char) : Option (Action × ShellSt) :=
  if raw.head? = some '\n' then some (.skipped, st)
  else
    let c := parse (stripNL raw)
    match handle_builtin env c.args st with
    | none => none
    | some r =>
      if r.ret = 0 then some (.executed c.args c.background, r.st)
      else some (.ranBuiltin r.ret, r.st)

/-- The whole read loop over a finite list of input lines.  An exhausted
list models `getline` returning `-1`, upon which `main` returns `1`; when
the `running` flag has been cleared the loop exits and `main` returns `0`. -/
def runShell (env : Env) : ShellSt → List (List Char) → Option Int
  | st, [] => if st.running then some 1 else some 0
  | st, raw :: rest =>
    if st.running then
      match mainIter env st raw with
      | none => none
      | some (_, st') => runShell env st' rest
    else some 0

/-- Whether a run of the loop reaches a failing read (`getline` returning
`-1`, i.e. the input list exhausted while the shell is still running). -/
def readFails (env : Env) : ShellSt → List (List Char) → Bool
  | st, [] => st.running
  | st, raw :: rest =>
    if st.running then
      match mainIter env st raw with
      | none => false
      | some (_, st') => readFails env st' rest
    else false

/-- Joining a token sequence with single spaces. -/
def joinSpace : List Str → List Char
  | [] => []
  | [t] => t
  | t :: ts => t ++ ' ' :: joinSpace ts

/-- The line's first character, if any, is not whitespace. -/
def noLeadWS (l : List Char) : Bool :=
  match l.head? with
  | some c => !c.isWhitespace
  | none => true

/-- The line's last character, if any, is not whitespace. -/
def noTrailWS (l : List Char) : Bool :=
  match l.getLast? with
  | some c => !c.isWhitespace
  | none => true

/-- No two adjacent characters of the line are both whitespace. -/
def noAdjWS : List Char → Bool
  | a :: b :: rest => (!(a.isWhitespace && b.isWhitespace)) && noAdjWS (b :: rest)
  | _ => true

/-- The line has no repeated, leading, or trailing whitespace. -/
def tidy (l : List Char) : Bool := noLeadWS l && noTrailWS l && noAdjWS l

/-- The index trace of the array stores performed by `parse`: the stores of
the kept tokens at indices `0 … n-1` and of the terminating null pointer at
index `n`, where `n` is the number of kept tokens. -/
def argStores (l : List Char) : List Nat :=
  List.range ((parse l).args.length + 1)

/-- A concrete environment with `HOME` unset and every `chdir` failing. -/
def env0 : Env := ⟨none, fun _ => none⟩

/-- A concrete starting state: running, in the root directory. -/
def st0 : ShellSt := ⟨true, ['/']⟩

/-! ### Helper lemmas about the token loop of `parse` -/

theorem parseTokens_no_marker : ∀ ts : List Str, marker ∉ ts → parseTokens ts = (ts, false) := by
  intro ts
  induction ts with
  | nil => intro _; rfl
  | cons t ts ih =>
    intro h
    have ht : ¬ t = marker := fun e => h (e ▸ List.mem_cons_self t ts)
    have hts : marker ∉ ts := fun m => h (List.mem_cons_of_mem _ m)
    simp [parseTokens, if_neg ht, ih hts]

theorem parseTokens_append_marker :
    ∀ pre post : List Str, marker ∉ pre →
      parseTokens (pre ++ marker :: post) = (pre, true) := by
  intro pre
  induction pre with
  | nil => intro post _; simp [parseTokens]
  | cons t pre ih =>
    intro post h
    have ht : ¬ t = marker := fun e => h (e ▸ List.mem_cons_self t pre)
    have hpre : marker ∉ pre := fun m => h (List.mem_cons_of_mem _ m)
    simp [parseTokens, if_neg ht, ih post hpre]

theorem parseTokens_fst :
    ∀ ts : List Str, (parseTokens ts).1 = ts.takeWhile (fun t => t ≠ marker) := by
  intro ts
  induction ts with
  | nil => rfl
  | cons t ts ih =>
    by_cases h : t = marker
    · simp [parseTokens, h, List.takeWhile_cons]
    · simp [parseTokens, if_neg h, List.takeWhile_cons, h, ih]

theorem parse_no_marker (l : List Char) (h : marker ∉ tokenize l) :
    parse l = ⟨tokenize l, false⟩ := by
  simp [parse, parseTokens_no_marker _ h]

/-! ### Helper lemmas about the tokenizer -/

theorem fields_cons_eq (p : Char → Bool) (c : Char) (cs : List Char)
    (t : List Char) (ts : List (List Char)) (h : fields p cs = t :: ts) :
    fields p (c :: cs) = if p c then [] :: t :: ts else (c :: t) :: ts := by
  simp [fields, h]

theorem fields_ne_nil (p : Char → Bool) : ∀ l : List Char, fields p l ≠ [] := by
  intro l
  induction l with
  | nil => simp [fields]
  | cons c cs ih =>
    cases h : fields p cs with
    | nil => exact absurd h ih
    | cons t ts =>
      by_cases hc : p c <;> simp [fields, h, hc]

theorem joinSpace_fields :
    ∀ l : List Char, joinSpace (fields (fun c => c == ' ') l) = l := by
  intro l
  induction l with
  | nil => rfl
  | cons c cs ih =>
    cases h : fields (fun c => c == ' ') cs with
    | nil => exact absurd h (fields_ne_nil _ cs)
    | cons t ts =>
      by_cases hc : (c == ' ') = true
      · have hc' : c = ' ' := by
          simpa using hc
        rw [h] at ih
        cases ts with
        | nil =>
          simp [fields, h, hc, joinSpace] at ih ⊢
          simp [hc', ih]
        | cons u ts' =>
          simp [fields, h, hc, joinSpace] at ih ⊢
          simp [hc', ih]
      · rw [h] at ih
        cases ts with
        | nil =>
          simp [fields, h, hc, joinSpace] at ih ⊢
          simp [ih]
        | cons u ts' =>
          simp [fields, h, hc, joinSpace] at ih ⊢
          simp [ih]

theorem nil_not_mem_fields :
    ∀ (l : List Char) (c : Char), noAdjWS (c :: l) = true → noTrailWS (c :: l) = true →
      (((c == ' ') = false → [] ∉ fields (fun d => d == ' ') (c :: l)) ∧
       ((c == ' ') = true →
         ∃ g, fields (fun d => d == ' ') (c :: l) = [] :: g ∧ [] ∉ g)) := by
  intro l
  induction l with
  | nil =>
    intro c _ htrail
    have hcw : c.isWhitespace = false := by
      simpa [noTrailWS] using htrail
    have hc : (c == ' ') = false := by
      cases hsp : c == ' '
      · rfl
      · have : c = ' ' := by simpa using hsp
        rw [this] at hcw
        simp [Char.isWhitespace] at hcw
    refine ⟨fun _ => ?_, fun h => by rw [h] at hc; cases hc⟩
    simp [fields, hc]
  | cons d l' ih =>
    intro c hadj htrail
    have hadj' : noAdjWS (d :: l') = true := by
      simp [noAdjWS] at hadj
      exact hadj.2
    have htrail' : noTrailWS (d :: l') = true := by
      simpa [noTrailWS, List.getLast?_cons_cons] using htrail
    have ihd := ih d hadj' htrail'
    cases h : fields (fun e => e == ' ') (d :: l') with
    | nil => exact absurd h (fields_ne_nil _ _)
    | cons t ts =>
      have hstep := fields_cons_eq (fun e => e == ' ') c (d :: l') t ts h
      constructor
      · intro hc
        have hf : fields (fun e => e == ' ') (c :: d :: l') = (c :: t) :: ts := by
          rw [hstep]; simp [hc]
        cases hd : d == ' '
        · have h1 : [] ∉ t :: ts := by rw [← h]; exact ihd.1 hd
          rw [hf]
          intro e
          rcases List.mem_cons.mp e with e1 | e2
          · exact List.cons_ne_nil c t e1.symm
          · exact h1 (List.mem_cons_of_mem _ e2)
        · obtain ⟨g, hg, hng⟩ := ihd.2 hd
          rw [h] at hg
          injection hg with hg1 hg2
          rw [hf]
          intro e
          rcases List.mem_cons.mp e with e1 | e2
          · exact List.cons_ne_nil c t e1.symm
          · exact hng (hg2 ▸ e2)
      · intro hc
        have hd : (d == ' ') = false := by
          cases hd : d == ' '
          · rfl
          · have hc' : c = ' ' := by simpa using hc
            have hd' : d = ' ' := by simpa using hd
            have hws : (' ' : Char).isWhitespace = true := by decide
            rw [hc', hd'] at hadj
            simp [noAdjWS, hws] at hadj
        have h1 : [] ∉ t :: ts := by rw [← h]; exact ihd.1 hd
        refine ⟨t :: ts, ?_, h1⟩
        rw [hstep]; simp [hc]

theorem runShell_not_running (env : Env) (st : ShellSt) (input : List (List Char))
    (h : st.running = false) : runShell env st input = some 0 := by
  cases input <;> simp [runShell, h]

theorem joinSpace_tokenize (l : List Char) (h : tidy l = true) :
    joinSpace (tokenize l) = l := by
  cases l with
  | nil => rfl
  | cons c cs =>
    have h3 : noLeadWS (c :: cs) = true ∧ noTrailWS (c :: cs) = true ∧
        noAdjWS (c :: cs) = true := by
      simpa [tidy, Bool.and_eq_true, and_assoc] using h
    have hlead : c.isWhitespace = false := by
      simpa [noLeadWS] using h3.1
    have hc : (c == ' ') = false := by
      cases hsp : c == ' '
      · rfl
      · have hce : c = ' ' := by simpa using hsp
        rw [hce] at hlead
        exact absurd hlead (by decide)
    have hnn := (nil_not_mem_fields cs c h3.2.2 h3.2.1).1 hc
    have hfil : (fields (fun d => d == ' ') (c :: cs)).filter (fun t => t ≠ []) =
        fields (fun d => d == ' ') (c :: cs) := by
      rw [List.filter_eq_self]
      intro a ha
      simp only [decide_eq_true_eq]
      intro e
      rw [e] at ha
      exact hnn ha
    calc joinSpace (tokenize (c :: cs))
        = joinSpace (fields (fun d => d == ' ') (c :: cs)) := by rw [tokenize, hfil]
      _ = c :: cs := joinSpace_fields (c :: cs)

/-! ### The claims -/

/-- Claim C2 (confirmed): for a line whose token sequence has its first
background-marker occurrence after `k-1` tokens, `parse` keeps exactly those
first `k-1` tokens in order, sets the background flag, and discards the
marker and everything after it. -/
theorem C2_marker_truncation (l : List Char) (pre post : List Str)
    (h1 : tokenize l = pre ++ marker :: post) (h2 : marker ∉ pre) :
    parse l = ⟨pre, true⟩ := by
  simp [parse, h1, parseTokens_append_marker pre post h2]

/-- Witness for C2 on the line `"a # b"`. -/
theorem C2_marker_truncation_witness : parse "a # b".data = ⟨[['a']], true⟩ :=
  C2_marker_truncation "a # b".data [['a']] [['b']] (by decide) (by decide)

/-- Counterexample for C3 as stated: the line `"a<TAB>b"` contains no
background-marker token, yet the parsed argument vector is the single token
`"a<TAB>b"` and not the whitespace-split `["a", "b"]` — the code splits on
the space character only, not on general whitespace. -/
theorem C3_counterexample :
    (∀ t ∈ tokenize ['a', '\t', 'b'], t ≠ marker) ∧
    (∀ t ∈ whitespaceSplit ['a', '\t', 'b'], t ≠ marker) ∧
    ¬((parse ['a', '\t', 'b']).background = false ∧
      (parse ['a', '\t', 'b']).args = whitespaceSplit ['a', '\t', 'b']) := by
  decide

/-- Claim C3 (amended: splitting on runs of the space character, not of
general whitespace): for a line with no background-marker token, `parse`
returns background flag `false` and exactly the space-split tokens of the
line, in order, with no empty tokens. -/
theorem C3_space_split (l : List Char) (h : ∀ t ∈ tokenize l, t ≠ marker) :
    (parse l).background = false ∧ (parse l).args = tokenize l ∧
    [] ∉ tokenize l := by
  have hm : marker ∉ tokenize l := fun m => h marker m rfl
  rw [parse_no_marker l hm]
  refine ⟨rfl, rfl, ?_⟩
  intro e
  simp only [tokenize, List.mem_filter, decide_eq_true_eq] at e
  exact e.2 rfl

/-- Witness for C3 (amended) on the line `"ls -l"`. -/
theorem C3_space_split_witness :
    (parse "ls -l".data).background = false ∧
    (parse "ls -l".data).args = tokenize "ls -l".data ∧
    [] ∉ tokenize "ls -l".data :=
  C3_space_split "ls -l".data (by decide)

/-- Claim C8 (confirmed): joining the parsed token sequence with single
spaces reproduces the original line whenever the line has no repeated,
leading, or trailing whitespace and no background-marker token. -/
theorem C8_round_trip (l : List Char) (h1 : tidy l = true)
    (h2 : marker ∉ tokenize l) :
    joinSpace (parse l).args = l := by
  rw [parse_no_marker l h2]
  exact joinSpace_tokenize l h1

/-- Witness for C8 on the line `"ab c"`. -/
theorem C8_round_trip_witness : joinSpace (parse "ab c".data).args = "ab c".data :=
  C8_round_trip "ab c".data (by decide) (by decide)

/-- Claim C9 (confirmed): `parse` keeps exactly the tokens preceding the
first background marker, with no bound check, so the stores of the kept
tokens (indices `0 … n-1`) and of the terminating null pointer (index `n`)
stay inside the `MAX_ARGS = 128` array exactly when the line yields at most
`127` tokens before any background marker. -/
theorem C9_capacity (l : List Char) :
    (parse l).args = (tokenize l).takeWhile (fun t => t ≠ marker) ∧
    ((∀ i ∈ argStores l, i < MAX_ARGS) ↔
      (parse l).args.length ≤ MAX_ARGS - 1) := by
  constructor
  · simpa [parse] using parseTokens_fst (tokenize l)
  · constructor
    · intro h
      have hk := h ((parse l).args.length) (by simp [argStores])
      simp only [MAX_ARGS] at hk ⊢
      omega
    · intro h i hi
      simp only [argStores, List.mem_range] at hi
      simp only [MAX_ARGS] at h ⊢
      omega

/-- Claim C4 (confirmed): for `cd`/`chdir` the target path is the second
token when present, otherwise the home-directory value; a failing directory
change yields result `-1` (handled-failure) with the state — working
directory and running flag — unchanged, and a successful one yields result
`1` (handled-success) with the new working directory. -/
theorem C4_cd (env : Env) (st : ShellSt) (a0 : Str) (rest : List Str)
    (h1 : a0 = "cd".data ∨ a0 = "chdir".data) :
    (rest = [] → cdTarget env rest = env.home) ∧
    (∀ p rest', rest = p :: rest' → cdTarget env rest = some p) ∧
    (env.chdirRes (cdTarget env rest) = none →
      handle_builtin env (a0 :: rest) st = some ⟨-1, st, some (cdTarget env rest)⟩) ∧
    (∀ d, env.chdirRes (cdTarget env rest) = some d →
      handle_builtin env (a0 :: rest) st =
        some ⟨1, ⟨st.running, d⟩, some (cdTarget env rest)⟩) := by
  have hne : ¬(a0 = "exit".data ∨ a0 = "quit".data) := by
    rcases h1 with h | h <;> subst h <;> decide
  refine ⟨?_, ?_, ?_, ?_⟩
  · intro he; rw [he]; rfl
  · intro p rest' he; rw [he]; rfl
  · intro hr
    simp [handle_builtin, hne, h1, hr]
  · intro d hr
    simp [handle_builtin, hne, h1, hr]

/-- Witness for C4: a failing `cd /x` with every `chdir` failing. -/
theorem C4_cd_witness :
    handle_builtin env0 ["cd".data, "/x".data] st0 =
      some ⟨-1, st0, some (cdTarget env0 ["/x".data])⟩ :=
  (C4_cd env0 st0 "cd".data ["/x".data] (Or.inl rfl)).2.2.1 rfl

/-- Claim C10 (confirmed): when the first token is `cd` or `chdir`, no
second token is present, and the home-directory variable is unset,
`handle_builtin` passes the unchecked null result of the environment lookup
(modelled as `none`) straight to `chdir`. -/
theorem C10_null_path (env : Env) (st : ShellSt) (a0 : Str)
    (h1 : a0 = "cd".data ∨ a0 = "chdir".data) (h2 : env.home = none) :
    ∃ r, handle_builtin env [a0] st = some r ∧ r.chdirArg = some none := by
  have hne : ¬(a0 = "exit".data ∨ a0 = "quit".data) := by
    rcases h1 with h | h <;> subst h <;> decide
  have htgt : cdTarget env [] = none := by simp [cdTarget, h2]
  cases hr : env.chdirRes none with
  | none =>
    refine ⟨⟨-1, st, some none⟩, ?_, rfl⟩
    simp [handle_builtin, hne, h1, htgt, hr]
  | some d =>
    refine ⟨⟨1, ⟨st.running, d⟩, some none⟩, ?_, rfl⟩
    simp [handle_builtin, hne, h1, htgt, hr]

/-- Witness for C10: `cd` alone with `HOME` unset. -/
theorem C10_null_path_witness :
    ∃ r, handle_builtin env0 ["cd".data] st0 = some r ∧ r.chdirArg = some none :=
  C10_null_path env0 st0 "cd".data (Or.inl rfl) rfl

theorem handle_builtin_ret_cases (env : Env) (args : List Str) (st : ShellSt)
    (r : BResult) (hr : handle_builtin env args st = some r) :
    r.ret = 1 ∨ r.ret = 0 ∨ r.ret = -1 := by
  cases args with
  | nil => simp [handle_builtin] at hr
  | cons a0 rest =>
    by_cases he : a0 = "exit".data ∨ a0 = "quit".data
    · simp [handle_builtin, he] at hr
      rw [← hr]
      exact Or.inl rfl
    · by_cases hc : a0 = "cd".data ∨ a0 = "chdir".data
      · cases hres : env.chdirRes (cdTarget env rest) with
        | none =>
          simp [handle_builtin, he, hc, hres] at hr
          rw [← hr]
          exact Or.inr (Or.inr rfl)
        | some d =>
          simp [handle_builtin, he, hc, hres] at hr
          rw [← hr]
          exact Or.inl rfl
      · simp [handle_builtin, he, hc] at hr
        rw [← hr]
        exact Or.inr (Or.inl rfl)

/-- Claim C1 (amended): a non-blank line is always dispatched, and the
dispatched argument vector is empty exactly when the line has no token or
its first token is the background marker — so a whitespace-only or
marker-only line does reach the Dispatcher with an empty vector (the
unguarded case exhibited by the counterexample); whenever at least one
token precedes any marker the vector is non-empty and the Dispatcher's
inspection of the first token is well-defined. -/
theorem C1_empty_dispatch (env : Env) (st : ShellSt) (raw : List Char)
    (h : raw.head? ≠ some '\n') :
    ((parse (stripNL raw)).args = [] ↔
      (tokenize (stripNL raw) = [] ∨
        (tokenize (stripNL raw)).head? = some marker)) ∧
    ((parse (stripNL raw)).args ≠ [] →
      (handle_builtin env (parse (stripNL raw)).args st).isSome = true) := by
  constructor
  · cases hts : tokenize (stripNL raw) with
    | nil => simp [parse, hts, parseTokens]
    | cons t ts =>
      by_cases hm : t = marker
      · simp [parse, hts, parseTokens, hm]
      · simp [parse, hts, parseTokens, hm]
  · intro hne
    cases hargs : (parse (stripNL raw)).args with
    | nil => exact absurd hargs hne
    | cons a0 rest =>
      by_cases he : a0 = "exit".data ∨ a0 = "quit".data
      · simp [handle_builtin, he]
      · by_cases hc : a0 = "cd".data ∨ a0 = "chdir".data
        · cases hres : env.chdirRes (cdTarget env rest) <;>
            simp [handle_builtin, he, hc, hres]
        · simp [handle_builtin, he, hc]

/-- Counterexample for C1 as stated: the whitespace-only line `"  \n"` and
the marker-only line `"#\n"` both pass the blank-line guard (`cmd[0]` is not
the newline), parse to an empty argument vector, and reach the Dispatcher,
which then reads a first token that does not exist (the model's `none`). -/
theorem C1_counterexample :
    ([' ', ' ', '\n'].head? ≠ some '\n') ∧
    (parse (stripNL [' ', ' ', '\n'])).args = [] ∧
    handle_builtin env0 (parse (stripNL [' ', ' ', '\n'])).args st0 = none ∧
    mainIter env0 st0 [' ', ' ', '\n'] = none ∧
    (['#', '\n'].head? ≠ some '\n') ∧
    (parse (stripNL ['#', '\n'])).args = [] ∧
    (parse (stripNL ['#', '\n'])).background = true ∧
    mainIter env0 st0 ['#', '\n'] = none := by
  decide

/-- Witness for C1 (amended) on the non-blank line `"ls"`. -/
theorem C1_empty_dispatch_witness :
    ((parse (stripNL "ls\n".data)).args = [] ↔
      (tokenize (stripNL "ls\n".data) = [] ∨
        (tokenize (stripNL "ls\n".data)).head? = some marker)) ∧
    ((parse (stripNL "ls\n".data)).args ≠ [] →
      (handle_builtin env0 (parse (stripNL "ls\n".data)).args st0).isSome = true) :=
  C1_empty_dispatch env0 st0 "ls\n".data (by decide)

/-- Claim C5 (confirmed): the Dispatcher's result takes only the three
pairwise-distinct values `1` (handled-success), `0` (not-a-builtin) and
`-1` (handled-failure); a blank line is skipped without any dispatch, and a
dispatched line reaches the Process Executor exactly when the Dispatcher
returned `0` — both `1` and `-1` prevent external execution. -/
theorem C5_routing (env : Env) (st : ShellSt) (raw : List Char)
    (a : Action) (st' : ShellSt)
    (h : mainIter env st raw = some (a, st')) :
    ((1 : Int) ≠ 0 ∧ (-1 : Int) ≠ 0 ∧ (1 : Int) ≠ -1) ∧
    (∀ args r, handle_builtin env args st = some r →
      r.ret = 1 ∨ r.ret = 0 ∨ r.ret = -1) ∧
    (raw.head? = some '\n' → a = .skipped) ∧
    (raw.head? ≠ some '\n' →
      ((∃ as bg, a = .executed as bg) ↔
        ∃ r, handle_builtin env (parse (stripNL raw)).args st = some r ∧
          r.ret = 0)) := by
  refine ⟨by decide, fun args r hr => handle_builtin_ret_cases env args st r hr, ?_, ?_⟩
  · intro hb
    simp [mainIter, hb] at h
    exact h.1.symm
  · intro hb
    simp only [mainIter, if_neg hb] at h
    constructor
    · rintro ⟨as, bg, ha⟩
      subst ha
      cases hh : handle_builtin env (parse (stripNL raw)).args st with
      | none => rw [hh] at h; exact absurd h (by simp)
      | some r =>
        rw [hh] at h
        by_cases hz : r.ret = 0
        · exact ⟨r, rfl, hz⟩
        · simp [hz] at h
    · rintro ⟨r, hh, hz⟩
      rw [hh] at h
      simp only [hz, if_true, ite_true] at h
      simp only [Option.some.injEq, Prod.mk.injEq] at h
      exact ⟨(parse (stripNL raw)).args, (parse (stripNL raw)).background, h.1.symm⟩

/-- Witness for C5 on the external command line `"ls"`. -/
theorem C5_routing_witness :
    ((1 : Int) ≠ 0 ∧ (-1 : Int) ≠ 0 ∧ (1 : Int) ≠ -1) ∧
    (∀ args r, handle_builtin env0 args st0 = some r →
      r.ret = 1 ∨ r.ret = 0 ∨ r.ret = -1) ∧
    ("ls\n".data.head? = some '\n' → Action.executed [['l', 's']] false = .skipped) ∧
    ("ls\n".data.head? ≠ some '\n' →
      ((∃ as bg, Action.executed [['l', 's']] false = .executed as bg) ↔
        ∃ r, handle_builtin env0 (parse (stripNL "ls\n".data)).args st0 = some r ∧
          r.ret = 0)) :=
  C5_routing env0 st0 "ls\n".data (.executed [['l', 's']] false) st0 (by decide)

/-- Claim C6 (confirmed): a first token exactly `exit` or `quit` makes the
Dispatcher clear the running flag and report `1` (handled-success) with a
result independent of every further argument, and the read loop then
returns exit status `0` without touching any further queued input line. -/
theorem C6_exit_quit (env : Env) (st : ShellSt) (a0 : Str) (rest : List Str)
    (raw : List Char) (queued : List (List Char))
    (h1 : a0 = "exit".data ∨ a0 = "quit".data) :
    handle_builtin env (a0 :: rest) st = some ⟨1, ⟨false, st.cwd⟩, none⟩ ∧
    (raw.head? ≠ some '\n' →
      (parse (stripNL raw)).args.head? = some a0 →
      runShell env st (raw :: queued) = some 0) := by
  have hb : handle_builtin env (a0 :: rest) st = some ⟨1, ⟨false, st.cwd⟩, none⟩ := by
    simp [handle_builtin, h1]
  refine ⟨hb, ?_⟩
  intro hnb hhead
  cases hrun : st.running with
  | false => exact runShell_not_running env st (raw :: queued) hrun
  | true =>
    cases hargs : (parse (stripNL raw)).args with
    | nil => rw [hargs] at hhead; exact absurd hhead (by simp)
    | cons b tail =>
      rw [hargs] at hhead
      simp only [List.head?_cons, Option.some.injEq] at hhead
      subst hhead
      have hbi : handle_builtin env (parse (stripNL raw)).args st =
          some ⟨1, ⟨false, st.cwd⟩, none⟩ := by
        rw [hargs]
        simp [handle_builtin, h1]
      have hmi : mainIter env st raw = some (.ranBuiltin 1, ⟨false, st.cwd⟩) := by
        simp [mainIter, hnb, hbi]
      rw [runShell, if_pos hrun, hmi]
      exact runShell_not_running env ⟨false, st.cwd⟩ queued rfl

/-- Witness for C6: the line `"exit"` followed by a queued `"ls"` line. -/
theorem C6_exit_quit_witness :
    handle_builtin env0 ("exit".data :: []) st0 = some ⟨1, ⟨false, st0.cwd⟩, none⟩ ∧
    runShell env0 st0 ("exit\n".data :: ["ls\n".data]) = some 0 :=
  ⟨(C6_exit_quit env0 st0 "exit".data [] "exit\n".data ["ls\n".data] (Or.inl rfl)).1,
   (C6_exit_quit env0 st0 "exit".data [] "exit\n".data ["ls\n".data] (Or.inl rfl)).2
     (by decide) (by decide)⟩

/-- Claim C7 (confirmed): a terminating run of the loop exits with status
`0` or `1`, and the status is non-zero exactly when the input stream fails
(is exhausted) while the shell is still running; when the flag was cleared
by `exit`/`quit` before that, the status is `0`. -/
theorem C7_exit_status (env : Env) :
    ∀ (input : List (List Char)) (st : ShellSt) (c : Int),
      runShell env st input = some c →
      (c = 0 ∨ c = 1) ∧ (c ≠ 0 ↔ readFails env st input = true) := by
  intro input
  induction input with
  | nil =>
    intro st c h
    cases hrun : st.running with
    | false =>
      rw [runShell, if_neg (by simp [hrun])] at h
      simp only [Option.some.injEq] at h
      subst h
      simp [readFails, hrun]
    | true =>
      rw [runShell, if_pos hrun] at h
      simp only [Option.some.injEq] at h
      subst h
      simp [readFails, hrun]
  | cons raw rest ih =>
    intro st c h
    cases hrun : st.running with
    | false =>
      rw [runShell, if_neg (by simp [hrun])] at h
      simp only [Option.some.injEq] at h
      subst h
      simp [readFails, hrun]
    | true =>
      rw [runShell, if_pos hrun] at h
      cases hmi : mainIter env st raw with
      | none => rw [hmi] at h; exact absurd h (by simp)
      | some p =>
        obtain ⟨a, st'⟩ := p
        rw [hmi] at h
        have hrec := ih st' c h
        rw [readFails, if_pos hrun, hmi]
        exact hrec

/-- Witness for C7: an immediately exhausted input stream gives status 1. -/
theorem C7_exit_status_witness :
    ((1 : Int) = 0 ∨ (1 : Int) = 1) ∧
    ((1 : Int) ≠ 0 ↔ readFails env0 st0 [] = true) :=
  C7_exit_status env0 [] st0 1 (by decide)

example : tokenize "a  b c".data = [['a'], ['b'], ['c']] := by decide
example : tokenize "   ".data = [] := by decide
example : parse "a # b".data = ⟨[['a']], true⟩ := by decide
example : parse "ls -l".data = ⟨[['l','s'], ['-','l']], false⟩ := by decide
example : joinSpace [['a'], ['b','c']] = "a bc".data := by decide
example : handle_builtin env0 ["cd".data] st0 = some ⟨-1, st0, some none⟩ := by decide
example : mainIter env0 st0 "  \n".data = none := by decide
example : runShell env0 st0 ["exit\n".data, "ls\n".data] = some 0 := by decide

end MyShell
